import Mathlib

/-!
Shallow embedding of the conversation orchestration pipeline of the
`llm-agent-template` repository (TypeScript), covering the conversation
state data model, the four pipeline stages (retrieval, action extraction,
action execution, response generation), the action registry validation,
and the conditional graph orchestrator with its fallback boundary.

External collaborators (vector store, the two language-model providers,
`JSON.parse`/`JSON.stringify`, the durable DynamoDB action store) are
modelled as explicit oracles passed to each stage; a call that can throw
is an `Except String` value.  Persistence is captured as a write log so
that "never persisted" claims are expressible.
-/

namespace LLMAgent

/-- Message roles, per the langchain `_getType()` discriminator used by the
repository (`human` / `ai` / `system`). -/
inductive Role where
  | human
  | ai
  | system
deriving DecidableEq, Repr

/-- A chat message (`src/types/conversation.ts` uses langchain `BaseMessage`;
the repository only ever reads the role tag and the content string).
The `additional_kwargs` timestamps attached in some places are not part of
any claim and are not modelled. -/
structure Message where
  role : Role
  content : String
deriving DecidableEq, Repr

/-- Action status lifecycle, from `src/config/constants.ts` (`ActionStatus`). -/
inductive ActionStatus where
  | pending
  | in_progress
  | completed
  | failed
  | cancelled
deriving DecidableEq, Repr

/-- A JSON value, as produced by `JSON.parse` on the extraction model's
argument string.  `num` is a non-integer number (`Number.isInteger` false);
`int` an integer number. -/
inductive JsonValue where
  | str (s : String)
  | int (n : Int)
  | num
  | bool (b : Bool)
  | null
  | arr (items : List JsonValue)
  | obj (fields : List (String × JsonValue))

/-- In-state pending action (`src/types/conversation.ts`, `PendingAction`):
`{id, type, data, status}`.  `type` is `type_` because `type` is reserved. -/
structure PendingAction where
  id : String
  type_ : String
  data : List (String × JsonValue)
  status : ActionStatus

/-- The conversation state threaded through every stage
(`src/types/conversation.ts`, `ConversationState`). -/
structure ConversationState where
  conversationId : String
  messages : List Message
  context : List String
  pending_actions : List PendingAction

/-- `CONVERSATION.MAX_HISTORY_LENGTH` from `src/config/constants.ts`. -/
def MAX_HISTORY_LENGTH : Nat := 10

/-- `CONVERSATION.DEFAULT_RETRIEVAL_LIMIT` from `src/config/constants.ts`. -/
def DEFAULT_RETRIEVAL_LIMIT : Nat := 3

/-- `getLastHumanMessage` from `src/graphs/state.ts`: scan backward from the
end of `messages` for the first message whose `_getType()` is `"human"`. -/
def getLastHumanMessage (state : ConversationState) : Option Message :=
  state.messages.reverse.find? (fun m => m.role == Role.human)

/-- `getAllContextAsString` from `src/graphs/state.ts`: `context.join("\n\n")`. -/
def getAllContextAsString (state : ConversationState) : String :=
  String.intercalate "\n\n" state.context

/-- `updateAction` from `src/graphs/state.ts`, specialised to the only shape
of `updates` any call site uses (`{ status }`): replace the status of every
pending action whose `id` matches, leaving all other fields and actions as
they are. -/
def updateAction (state : ConversationState) (actionId : String)
    (status : ActionStatus) : ConversationState :=
  { state with
    pending_actions := state.pending_actions.map (fun action =>
      if action.id == actionId then { action with status := status } else action) }

/-- `addAIMessage` from `src/conversation/memory.ts`: append one `ai` message. -/
def addAIMessage (state : ConversationState) (content : String) : ConversationState :=
  { state with messages := state.messages ++ [Message.mk Role.ai content] }

/-- `getMessageHistory` from `src/conversation/memory.ts`: all messages when
there are at most `limit`, else `messages.slice(-limit)` (which, for
`limit = 0`, is the whole array in JavaScript). -/
def getMessageHistory (state : ConversationState)
    (limit : Nat := MAX_HISTORY_LENGTH) : List Message :=
  if state.messages.length ≤ limit then state.messages
  else if limit = 0 then state.messages
  else state.messages.drop (state.messages.length - limit)

/-- The role label used when formatting a message for the prompt
(`formatChatHistory` in `src/models/llm.ts`). -/
def roleLabel (r : Role) : String :=
  match r with
  | Role.human => "Human"
  | Role.ai => "Assistant"
  | Role.system => "System"

/-- `formatChatHistory` from `src/models/llm.ts`: label each message with its
role, drop empty entries, join with blank lines.  In the typed model the
per-message try/catch can never fire, so no message is skipped. -/
def formatChatHistory (messages : List Message) : String :=
  if messages.length = 0 then ""
  else
    String.intercalate "\n\n"
      ((messages.map (fun m => roleLabel m.role ++ ": " ++ m.content)).filter
        (fun s => s ≠ ""))

/-! ## Action registry (`src/tools/function-definitions.ts`) -/

/-- Per-field schema: the declared primitive kind (as the literal string the
source compares against) and an optional enum constraint.  Defaults and
descriptions are never consulted by `validateActionData` and are omitted. -/
structure FieldSchema where
  type_ : String
  enum_ : Option (List String)

/-- One entry of `functionDefinitions`: name, declared properties, required
field names. -/
structure FunctionDef where
  name : String
  properties : List (String × FieldSchema)
  required : List String

/-- `functionDefinitions` from `src/tools/function-definitions.ts`: the four
action schemas offered to the extraction model. -/
def functionDefinitions : List FunctionDef :=
  [ { name := "book_appointment"
    , properties :=
        [ ("person", ⟨"string", none⟩)
        , ("date", ⟨"string", none⟩)
        , ("time", ⟨"string", none⟩)
        , ("duration", ⟨"integer", none⟩)
        , ("purpose", ⟨"string", none⟩)
        , ("location", ⟨"string", none⟩) ]
    , required := ["person", "date", "time"] }
  , { name := "take_note"
    , properties :=
        [ ("title", ⟨"string", none⟩)
        , ("content", ⟨"string", none⟩)
        , ("category", ⟨"string", some ["personal", "work", "ideas", "tasks", "other"]⟩)
        , ("tags", ⟨"array", none⟩) ]
    , required := ["content"] }
  , { name := "set_reminder"
    , properties :=
        [ ("title", ⟨"string", none⟩)
        , ("date", ⟨"string", none⟩)
        , ("time", ⟨"string", none⟩)
        , ("description", ⟨"string", none⟩)
        , ("priority", ⟨"string", some ["low", "medium", "high"]⟩)
        , ("recurrence", ⟨"string", some ["none", "daily", "weekly", "monthly"]⟩) ]
    , required := ["title", "date", "time"] }
  , { name := "search_knowledge"
    , properties :=
        [ ("query", ⟨"string", none⟩)
        , ("filters", ⟨"object", none⟩)
        , ("maxResults", ⟨"integer", none⟩) ]
    , required := ["query"] } ]

/-- `getFunctionDefinition`: find a definition by name. -/
def getFunctionDefinition (type_ : String) : Option FunctionDef :=
  functionDefinitions.find? (fun d => d.name == type_)

/-- Result of `validateActionData`: `{valid, errors?}`. -/
structure ValidationResult where
  valid : Bool
  errors : Option (List String)

/-- A required field counts as missing when `data[field]` is absent,
`null`, or the empty string (the source tests `undefined || null || ""`). -/
def isMissingValue : JsonValue → Bool
  | JsonValue.null => true
  | JsonValue.str s => s == ""
  | _ => false

/-- First binding of `field` in the parsed argument object. -/
def lookupField (data : List (String × JsonValue)) (field : String) : Option JsonValue :=
  (data.find? (fun p => p.1 == field)).map (fun p => p.2)

/-- `typeof value === "string"`. -/
def isStringValue : JsonValue → Bool
  | JsonValue.str _ => true
  | _ => false

/-- `Number.isInteger(value)`. -/
def isIntegerValue : JsonValue → Bool
  | JsonValue.int _ => true
  | _ => false

/-- `Array.isArray(value)`. -/
def isArrayValue : JsonValue → Bool
  | JsonValue.arr _ => true
  | _ => false

/-- `typeof value === "object" && value !== null && !Array.isArray(value)`. -/
def isObjectValue : JsonValue → Bool
  | JsonValue.obj _ => true
  | _ => false

/-- `fieldSchema.enum.includes(value)`: strict-equality membership in the
declared enum list (every declared enum is a list of strings). -/
def isEnumMember (v : JsonValue) (es : List String) : Bool :=
  match v with
  | JsonValue.str s => es.contains s
  | _ => false

/-- The errors contributed by one *provided* field of the argument object:
unknown-field, kind-mismatch (the source's if/else-if chain), and the
separate enum check. -/
def fieldErrors (definition : FunctionDef) (p : String × JsonValue) : List String :=
  match (definition.properties.find? (fun q => q.1 == p.1)).map (fun q => q.2) with
  | none => ["Unknown field: " ++ p.1]
  | some fieldSchema =>
    let typeErr : List String :=
      if fieldSchema.type_ == "string" && !(isStringValue p.2) then
        ["Field " ++ p.1 ++ " must be a string"]
      else if fieldSchema.type_ == "integer" && !(isIntegerValue p.2) then
        ["Field " ++ p.1 ++ " must be an integer"]
      else if fieldSchema.type_ == "array" && !(isArrayValue p.2) then
        ["Field " ++ p.1 ++ " must be an array"]
      else if fieldSchema.type_ == "object" && !(isObjectValue p.2) then
        ["Field " ++ p.1 ++ " must be an object"]
      else []
    let enumErr : List String :=
      match fieldSchema.enum_ with
      | some es =>
        if !(isEnumMember p.2 es) then
          ["Field " ++ p.1 ++ " must be one of: " ++ String.intercalate ", " es]
        else []
      | none => []
    typeErr ++ enumErr

/-- `validateActionData` from `src/tools/function-definitions.ts`: unknown
type fails outright; otherwise accumulate required-field errors then
per-provided-field errors; `valid` iff no error accumulated. -/
def validateActionData (type_ : String) (data : List (String × JsonValue)) :
    ValidationResult :=
  match getFunctionDefinition type_ with
  | none => { valid := false, errors := some ["Unknown action type: " ++ type_] }
  | some definition =>
    let requiredErrors : List String :=
      definition.required.filterMap (fun field =>
        match lookupField data field with
        | none => some ("Missing required field: " ++ field)
        | some v =>
          if isMissingValue v then some ("Missing required field: " ++ field)
          else none)
    let providedErrors : List String := (data.map (fieldErrors definition)).flatten
    let errors := requiredErrors ++ providedErrors
    { valid := errors.length == 0
    , errors := if errors.length > 0 then some errors else none }

/-! ## Retrieval stage (`src/graphs/nodes/retrieval.ts`) -/

/-- A chunk returned by `querySimilarDocuments`; only `content` is read. -/
structure ContextChunk where
  content : String

/-- `retrievalNode`: find the last human message (skip when none, or when its
content is falsy), query the semantic store with it, and replace `context`
with the 1-indexed bracketed formatting of the results; an error from the
store is treated exactly like zero results (`context := []`).  The second
component counts store queries issued (0 or 1), so that "no external call"
properties are expressible.  The store oracle receives the query string and
the retrieval limit. -/
def retrievalNode (store : String → Nat → Except String (List ContextChunk))
    (state : ConversationState) : ConversationState × Nat :=
  match getLastHumanMessage state with
  | none => (state, 0)
  | some lastMessage =>
    if lastMessage.content = "" then (state, 0)
    else
      match store lastMessage.content DEFAULT_RETRIEVAL_LIMIT with
      | Except.error _ => ({ state with context := [] }, 1)
      | Except.ok contextChunks =>
        if contextChunks.length = 0 then ({ state with context := [] }, 1)
        else
          ({ state with
             context := contextChunks.enum.map (fun p =>
               "[" ++ toString (p.1 + 1) ++ "] " ++ p.2.content) }, 1)

/-! ## Action extraction stage (`src/graphs/nodes/extract-actions.ts`) -/

/-- The `{name, arguments}` pair of a selected tool/function invocation. -/
structure ToolCallFunction where
  name : String
  arguments : String

/-- One entry of `additional_kwargs.tool_calls`; `function` may be absent. -/
structure ToolCall where
  type_ : String
  function : Option ToolCallFunction

/-- The extraction model's response surface the node inspects:
`additional_kwargs.tool_calls` (newer API) and
`additional_kwargs.function_call` (older API). -/
structure ModelResponse where
  tool_calls : Option (List ToolCall)
  function_call : Option ToolCallFunction

/-- The `extractedAction` computation: a non-empty `tool_calls` array wins
(taking its first element when it is a function call, else nothing);
otherwise fall back to `function_call`. -/
def extractedActionOf (response : ModelResponse) : Option ToolCallFunction :=
  match response.tool_calls with
  | some (firstTool :: _) =>
    if firstTool.type_ == "function" then firstTool.function else none
  | _ => response.function_call

/-- Oracles for one run of the extraction node: the function-calling model
invocation (which may throw), `JSON.parse` on the argument string (which may
throw), the durable `createAction` call (which may throw), and the generated
local pending-action id. -/
structure ExtractEffects where
  response : Except String ModelResponse
  parseArgs : String → Except String (List (String × JsonValue))
  create : Except String Unit
  newId : String

/-- Result of the extraction node together with its externally visible
effects: how many model invocations and how many durable `createAction`
calls were made. -/
structure ExtractResult where
  state : ConversationState
  modelCalls : Nat
  createCalls : Nat

/-- `extractActionsNode`: no-op without a (non-falsy) last human message;
model throw, no selected call, argument-parse failure, failed validation and
`createAction` failure each leave the state unchanged; on success append one
pending action (status `pending`) after persisting it. -/
def extractActionsNode (eff : ExtractEffects) (state : ConversationState) :
    ExtractResult :=
  match getLastHumanMessage state with
  | none => ⟨state, 0, 0⟩
  | some lastMessage =>
    if lastMessage.content = "" then ⟨state, 0, 0⟩
    else
      match eff.response with
      | Except.error _ => ⟨state, 1, 0⟩
      | Except.ok response =>
        match extractedActionOf response with
        | none => ⟨state, 1, 0⟩
        | some extractedAction =>
          match eff.parseArgs extractedAction.arguments with
          | Except.error _ => ⟨state, 1, 0⟩
          | Except.ok actionArgs =>
            if (validateActionData extractedAction.name actionArgs).valid = false then
              ⟨state, 1, 0⟩
            else
              match eff.create with
              | Except.error _ => ⟨state, 1, 1⟩
              | Except.ok _ =>
                ⟨{ state with
                   pending_actions := state.pending_actions ++
                     [⟨eff.newId, extractedAction.name, actionArgs,
                       ActionStatus.pending⟩] }, 1, 1⟩

/-! ## Action execution stage (`src/graphs/nodes/execute-actions.ts`) -/

/-- How one handler invocation (raced against the execution timeout)
settles: a `{success: true, result}` value, a `{success: false, error?}`
value, or a rejection/throw (which also covers the timeout, whose message is
"Action execution timed out"). -/
inductive HandlerResult where
  | success (result : List (String × JsonValue))
  | failure (error : Option String)
  | thrown (msg : String)

/-- One durable write issued through the action store
(`markActionInProgress` / `markActionCompleted` / `markActionFailed`). -/
inductive StoreWrite where
  | in_progress (id : String)
  | completed (id : String) (result : List (String × JsonValue))
  | failed (id : String) (error : String)

/-- The keys of the static `actionHandlers` dispatch table: handlers are
registered only for these three action types. -/
def actionHandlers : List String := ["book_appointment", "take_note", "set_reminder"]

/-- `x || "Unknown error"` on an optional error string. -/
def orUnknownOpt : Option String → String
  | none => "Unknown error"
  | some e => if e == "" then "Unknown error" else e

/-- `(error as Error).message || "Unknown error"` on a thrown error. -/
def orUnknownStr (m : String) : String :=
  if m == "" then "Unknown error" else m

/-- The status a `pending` action ends the execution stage with: `failed`
when no handler is registered for its type or its handler fails or throws,
`completed` when the handler succeeds. -/
def terminalStatusOf (outcome : PendingAction → HandlerResult)
    (action : PendingAction) : ActionStatus :=
  if actionHandlers.contains action.type_ then
    match outcome action with
    | HandlerResult.success _ => ActionStatus.completed
    | HandlerResult.failure _ => ActionStatus.failed
    | HandlerResult.thrown _ => ActionStatus.failed
  else ActionStatus.failed

/-- The durable writes issued while processing one `pending` action. -/
def writesFor (outcome : PendingAction → HandlerResult)
    (action : PendingAction) : List StoreWrite :=
  if actionHandlers.contains action.type_ then
    StoreWrite.in_progress action.id ::
      (match outcome action with
       | HandlerResult.success r => [StoreWrite.completed action.id r]
       | HandlerResult.failure e => [StoreWrite.failed action.id (orUnknownOpt e)]
       | HandlerResult.thrown m => [StoreWrite.failed action.id (orUnknownStr m)])
  else [StoreWrite.failed action.id ("No handler for action type: " ++ action.type_)]

/-- One iteration of the `for (const action of pending_actions)` loop:
skip non-`pending` actions; fail actions without a registered handler; else
mark in-progress, run the handler, and record the terminal transition.  The
accumulator carries the evolving state and the durable write log. -/
def execOne (outcome : PendingAction → HandlerResult)
    (acc : ConversationState × List StoreWrite) (action : PendingAction) :
    ConversationState × List StoreWrite :=
  let (st, log) := acc
  if action.status ≠ ActionStatus.pending then (st, log)
  else if !(actionHandlers.contains action.type_) then
    (updateAction st action.id ActionStatus.failed,
     log ++ [StoreWrite.failed action.id
       ("No handler for action type: " ++ action.type_)])
  else
    let st1 := updateAction st action.id ActionStatus.in_progress
    let log1 := log ++ [StoreWrite.in_progress action.id]
    match outcome action with
    | HandlerResult.success r =>
      (updateAction st1 action.id ActionStatus.completed,
       log1 ++ [StoreWrite.completed action.id r])
    | HandlerResult.failure e =>
      (updateAction st1 action.id ActionStatus.failed,
       log1 ++ [StoreWrite.failed action.id (orUnknownOpt e)])
    | HandlerResult.thrown m =>
      (updateAction st1 action.id ActionStatus.failed,
       log1 ++ [StoreWrite.failed action.id (orUnknownStr m)])

/-- `executeActionsNode`: early return when there are no pending actions;
otherwise iterate the loop body over the (snapshot of the) pending-action
list, threading the copied state.  Returns the final state together with the
durable write log. -/
def executeActionsNode (outcome : PendingAction → HandlerResult)
    (state : ConversationState) : ConversationState × List StoreWrite :=
  if state.pending_actions.length = 0 then (state, [])
  else state.pending_actions.foldl (execOne outcome) (state, [])

/-- The durable writes the execution stage issues for a given action list:
those of each originally-`pending` action, in order. -/
def logOf (outcome : PendingAction → HandlerResult)
    (actions : List PendingAction) : List StoreWrite :=
  (actions.filter (fun a => a.status == ActionStatus.pending)).flatMap (writesFor outcome)

/-! ## Response generation stage (`src/graphs/nodes/generate.ts`) -/

/-- The `{chat_history, context, input}` record fed to the RAG prompt and
thence to the conversational model. -/
structure PromptInput where
  chat_history : String
  context : String
  input : String
deriving DecidableEq, Repr

/-- Fallback reply of `generateResponseNode` on a model failure. -/
def fallbackGenerate : String :=
  "I apologize, but I\x27m having trouble generating a response right now. Please try again in a moment."

/-- Canned reply of `generateResponseNode` when the history window is empty. -/
def noHistoryContent : String :=
  "I don\x27t see any previous messages in our conversation. How can I help you today?"

/-- Canned reply of `generateResponseNode` when the last window message has
falsy content. -/
def invalidLastContent : String :=
  "I\x27m having trouble understanding your last message. Could you please try again?"

/-- Fallback reply of `generateResponseWithActionSummaryNode` on any failure. -/
def fallbackSummary : String :=
  "I apologize, but I\x27m having trouble generating a response right now. Please try again."

/-- The prompt input built by `generateResponseNode`: formatted window,
context (or the fixed placeholder when empty), and the last message's
content. -/
def genInput (state : ConversationState) (lastMessage : Message) : PromptInput :=
  let context := getAllContextAsString state
  { chat_history := formatChatHistory (getMessageHistory state)
  , context := if context = "" then "No relevant context found." else context
  , input := lastMessage.content }

/-- `generateResponseNode`: empty window and falsy last-message content are
defined canned-reply cases; otherwise invoke the model on `genInput` and
append its reply, or the fixed fallback apology if the invocation throws. -/
def generateResponseNode (model : PromptInput → Except String String)
    (state : ConversationState) : ConversationState :=
  let history := getMessageHistory state
  match history.getLast? with
  | none => addAIMessage state noHistoryContent
  | some lastMessage =>
    if lastMessage.content = "" then addAIMessage state invalidLastContent
    else
      match model (genInput state lastMessage) with
      | Except.ok responseContent => addAIMessage state responseContent
      | Except.error _ => addAIMessage state fallbackGenerate

/-- The action summary block: completed then failed actions, each rendered
as `- type: JSON.stringify(data)`.  `stringify` is the `JSON.stringify`
builtin, passed as an oracle. -/
def actionSummaryText (stringify : List (String × JsonValue) → String)
    (actions : List PendingAction) : String :=
  let completedActions := actions.filter (fun a => a.status == ActionStatus.completed)
  let failedActions := actions.filter (fun a => a.status == ActionStatus.failed)
  let part1 :=
    if completedActions.length > 0 then
      "Completed actions:\n" ++ String.join (completedActions.map (fun a =>
        "- " ++ a.type_ ++ ": " ++ stringify a.data ++ "\n"))
    else ""
  let part2 :=
    if failedActions.length > 0 then
      "\nFailed actions:\n" ++ String.join (failedActions.map (fun a =>
        "- " ++ a.type_ ++ ": " ++ stringify a.data ++ "\n"))
    else ""
  part1 ++ part2

/-- The prompt input built by `generateResponseWithActionSummaryNode`: the
action summary is appended to the context block (which, unlike the plain
node, gets no placeholder when empty). -/
def summaryInput (stringify : List (String × JsonValue) → String)
    (state : ConversationState) (lastMessage : Message) : PromptInput :=
  let context := getAllContextAsString state
  let actionSummary := actionSummaryText stringify state.pending_actions
  { chat_history := formatChatHistory (getMessageHistory state)
  , context :=
      if context = "" then "Action summary:\n" ++ actionSummary
      else context ++ "\n\nAction summary:\n" ++ actionSummary
  , input := lastMessage.content }

/-- `generateResponseWithActionSummaryNode`: build `summaryInput` and invoke
the model, appending its reply or the fixed fallback apology when it throws.
With an empty window, `history[history.length - 1].content` throws before the
invocation and the same catch appends the same fallback, hence the `none`
branch. -/
def generateResponseWithActionSummaryNode
    (stringify : List (String × JsonValue) → String)
    (model : PromptInput → Except String String)
    (state : ConversationState) : ConversationState :=
  match (getMessageHistory state).getLast? with
  | none => addAIMessage state fallbackSummary
  | some lastMessage =>
    match model (summaryInput stringify state lastMessage) with
    | Except.ok responseContent => addAIMessage state responseContent
    | Except.error _ => addAIMessage state fallbackSummary

/-! ## Conditional orchestrator (`src/graphs/conversation-graph.ts`,
`createAdvancedConversationGraph`) -/

/-- `createFallbackResponse`: the input state with one apologetic `ai`
message appended. -/
def createFallbackResponse (state : ConversationState) : ConversationState :=
  { state with
    messages := state.messages ++
      [Message.mk Role.ai "I\x27m sorry, I encountered an error processing your request."] }

/-- The staged sequence inside the `try` of the advanced graph's `invoke`:
retrieval, extraction, then — iff `pending_actions` is non-empty — execution
followed by summary generation, else plain generation.  Each stage is a
function that may throw. -/
def orchestrate
    (retrieve extract execute genSummary gen :
      ConversationState → Except String ConversationState)
    (state : ConversationState) : Except String ConversationState := do
  let s1 ← retrieve state
  let s2 ← extract s1
  if s2.pending_actions.length > 0 then
    let s3 ← execute s2
    genSummary s3
  else
    gen s2

/-- `createAdvancedConversationGraph().invoke`: run the staged sequence; if
any stage throws, the catch answers with `createFallbackResponse(state)` —
built from the *original* `state` argument, not the partial state. -/
def advancedGraphInvoke
    (retrieve extract execute genSummary gen :
      ConversationState → Except String ConversationState)
    (state : ConversationState) : ConversationState :=
  match orchestrate retrieve extract execute genSummary gen state with
  | Except.ok s => s
  | Except.error _ => createFallbackResponse state

/-! ## Concrete sample data (used to instantiate the theorems below) -/

/-- A conversation with a single human message. -/
def demoState : ConversationState :=
  { conversationId := "conv_demo"
  , messages := [Message.mk Role.human "hi"]
  , context := []
  , pending_actions := [] }

/-- A conversation whose messages contain no human-role message. -/
def demoAiState : ConversationState :=
  { conversationId := "conv_ai"
  , messages := [Message.mk Role.ai "hello", Message.mk Role.system "sys"]
  , context := []
  , pending_actions := [] }

/-- A valid extracted note action, already in `pending` status. -/
def demoPending : PendingAction :=
  ⟨"pending_demo", "take_note", [("content", JsonValue.str "milk")], ActionStatus.pending⟩

/-- `demoState` after an extraction that appended `demoPending`. -/
def demoWithAction : ConversationState :=
  { demoState with pending_actions := [demoPending] }

/-- An already-resolved action. -/
def demoDoneAction : PendingAction := ⟨"done_1", "take_note", [], ActionStatus.completed⟩

/-- A pending note action. -/
def demoNoteAction : PendingAction := ⟨"note_1", "take_note", [], ActionStatus.pending⟩

/-- A pending booking action. -/
def demoBookAction : PendingAction := ⟨"book_1", "book_appointment", [], ActionStatus.pending⟩

/-- A pending action of the registry type with no registered handler. -/
def demoSearchAction : PendingAction := ⟨"search_1", "search_knowledge", [], ActionStatus.pending⟩

/-- Batch with one resolved and one pending action. -/
def demoExecState : ConversationState :=
  { conversationId := "conv_exec"
  , messages := []
  , context := []
  , pending_actions := [demoDoneAction, demoNoteAction] }

/-- Batch with two pending actions. -/
def demoThrowState : ConversationState :=
  { conversationId := "conv_throw"
  , messages := []
  , context := []
  , pending_actions := [demoNoteAction, demoBookAction] }

/-- Batch with one pending `search_knowledge` action. -/
def demoSearchState : ConversationState :=
  { conversationId := "conv_search"
  , messages := []
  , context := []
  , pending_actions := [demoSearchAction] }

/-- A handler oracle under which the note handler throws and every other
handler succeeds. -/
def demoThrowOutcome : PendingAction → HandlerResult :=
  fun a => if a.id == "note_1" then HandlerResult.thrown "boom" else HandlerResult.success []

/-- Extraction oracles in which the model selects `take_note` with an empty
argument object (which fails validation: `content` is required). -/
def demoInvalidEffects : ExtractEffects :=
  { response := Except.ok
      { tool_calls := some [⟨"function", some ⟨"take_note", "\x7b\x7d"⟩⟩]
      , function_call := none }
  , parseArgs := fun _ => Except.ok []
  , create := Except.ok ()
  , newId := "pending_1" }

/-! ## Helper lemmas -/

theorem updateAction_messages (st : ConversationState) (id : String)
    (s : ActionStatus) : (updateAction st id s).messages = st.messages := rfl

theorem updateAction_getElem?_other (st : ConversationState) (id : String)
    (s : ActionStatus) (i : Nat) (a : PendingAction)
    (ha : st.pending_actions[i]? = some a) (hne : a.id ≠ id) :
    (updateAction st id s).pending_actions[i]? = some a := by
  simp only [updateAction, List.getElem?_map, ha, Option.map_some']
  simp [hne]

theorem updateAction_getElem?_self (st : ConversationState) (id : String)
    (s : ActionStatus) (i : Nat) (a : PendingAction)
    (ha : st.pending_actions[i]? = some a) (hid : a.id = id) :
    (updateAction st id s).pending_actions[i]? = some { a with status := s } := by
  simp only [updateAction, List.getElem?_map, ha, Option.map_some']
  simp [hid]

theorem updateAction_twice (st : ConversationState) (id : String)
    (s1 s2 : ActionStatus) :
    updateAction (updateAction st id s1) id s2 = updateAction st id s2 := by
  unfold updateAction
  congr 1
  rw [List.map_map]
  exact List.map_congr_left (fun b _ => by
    by_cases h : b.id = id <;> simp [Function.comp, h])

theorem execOne_not_pending (outcome : PendingAction → HandlerResult)
    (acc : ConversationState × List StoreWrite) (a : PendingAction)
    (h : a.status ≠ ActionStatus.pending) : execOne outcome acc a = acc := by
  obtain ⟨st, log⟩ := acc
  simp [execOne, h]

theorem execOne_fst_pending (outcome : PendingAction → HandlerResult)
    (acc : ConversationState × List StoreWrite) (a : PendingAction)
    (h : a.status = ActionStatus.pending) :
    (execOne outcome acc a).1 = updateAction acc.1 a.id (terminalStatusOf outcome a) := by
  obtain ⟨st, log⟩ := acc
  simp only [execOne]
  rw [if_neg (by simp [h])]
  cases hh : actionHandlers.contains a.type_ with
  | false =>
    have hmem : ¬ (a.type_ ∈ actionHandlers) := by simpa using hh
    simp [hh, hmem, terminalStatusOf]
  | true =>
    have hmem : a.type_ ∈ actionHandlers := by simpa using hh
    cases ho : outcome a <;>
      simp [hh, hmem, ho, terminalStatusOf, updateAction_twice]

theorem execOne_snd (outcome : PendingAction → HandlerResult)
    (acc : ConversationState × List StoreWrite) (a : PendingAction) :
    (execOne outcome acc a).2 =
      acc.2 ++ (if a.status = ActionStatus.pending then writesFor outcome a else []) := by
  obtain ⟨st, log⟩ := acc
  by_cases h : a.status = ActionStatus.pending
  · simp only [execOne]
    rw [if_neg (by simp [h])]
    cases hh : actionHandlers.contains a.type_ with
    | false =>
      have hmem : ¬ (a.type_ ∈ actionHandlers) := by simpa using hh
      simp [hh, hmem, writesFor, h]
    | true =>
      have hmem : a.type_ ∈ actionHandlers := by simpa using hh
      cases ho : outcome a <;> simp [hh, hmem, ho, writesFor, h]
  · rw [execOne_not_pending outcome ⟨st, log⟩ a h]
    simp [h]

theorem foldl_execOne_messages (outcome : PendingAction → HandlerResult)
    (l : List PendingAction) :
    ∀ acc : ConversationState × List StoreWrite,
      (l.foldl (execOne outcome) acc).1.messages = acc.1.messages := by
  induction l with
  | nil => intro acc; rfl
  | cons a l ih =>
    intro acc
    rw [List.foldl_cons, ih]
    by_cases h : a.status = ActionStatus.pending
    · rw [execOne_fst_pending outcome acc a h]; rfl
    · rw [execOne_not_pending outcome acc a h]

theorem logOf_cons (outcome : PendingAction → HandlerResult) (a : PendingAction)
    (l : List PendingAction) :
    logOf outcome (a :: l) =
      (if a.status = ActionStatus.pending then writesFor outcome a else []) ++
        logOf outcome l := by
  by_cases h : a.status = ActionStatus.pending <;>
    simp [logOf, List.filter_cons, h]

theorem foldl_execOne_log (outcome : PendingAction → HandlerResult)
    (l : List PendingAction) :
    ∀ acc : ConversationState × List StoreWrite,
      (l.foldl (execOne outcome) acc).2 = acc.2 ++ logOf outcome l := by
  induction l with
  | nil => intro acc; simp [logOf]
  | cons a l ih =>
    intro acc
    rw [List.foldl_cons, ih, execOne_snd, logOf_cons, List.append_assoc]

theorem foldl_execOne_preserve (outcome : PendingAction → HandlerResult)
    (l : List PendingAction) :
    ∀ (acc : ConversationState × List StoreWrite) (i : Nat) (a : PendingAction),
      acc.1.pending_actions[i]? = some a →
      (∀ c ∈ l, c.status = ActionStatus.pending → c.id ≠ a.id) →
      (l.foldl (execOne outcome) acc).1.pending_actions[i]? = some a := by
  induction l with
  | nil => intro acc i a ha _; exact ha
  | cons c l ih =>
    intro acc i a ha hc
    rw [List.foldl_cons]
    refine ih _ i a ?_ (fun d hd hdp => hc d (List.mem_cons_of_mem _ hd) hdp)
    by_cases hcp : c.status = ActionStatus.pending
    · rw [execOne_fst_pending outcome acc c hcp]
      exact updateAction_getElem?_other _ _ _ _ _ ha
        (hc c (List.mem_cons_self _ _) hcp).symm
    · rw [execOne_not_pending outcome acc c hcp]; exact ha

theorem pairwise_distinct_ids {l : List PendingAction}
    (hdist : l.Pairwise (fun p q => p.id ≠ q.id)) :
    ∀ {a b : PendingAction}, a ∈ l → b ∈ l → a.id = b.id → a = b := by
  induction hdist with
  | nil => intro a b ha _ _; exact absurd ha (List.not_mem_nil a)
  | cons h _ ih =>
    intro a b ha hb heq
    rcases List.mem_cons.mp ha with rfl | ha'
    · rcases List.mem_cons.mp hb with rfl | hb'
      · rfl
      · exact absurd heq (h b hb')
    · rcases List.mem_cons.mp hb with rfl | hb'
      · exact absurd heq.symm (h a ha')
      · exact ih ha' hb' heq

theorem executeActionsNode_messages (outcome : PendingAction → HandlerResult)
    (state : ConversationState) :
    (executeActionsNode outcome state).1.messages = state.messages := by
  unfold executeActionsNode
  by_cases h0 : state.pending_actions.length = 0
  · rw [if_pos h0]
  · rw [if_neg h0]
    exact foldl_execOne_messages outcome state.pending_actions (state, [])

theorem executeActionsNode_log (outcome : PendingAction → HandlerResult)
    (state : ConversationState) :
    (executeActionsNode outcome state).2 = logOf outcome state.pending_actions := by
  unfold executeActionsNode
  by_cases h0 : state.pending_actions.length = 0
  · rw [if_pos h0]
    have : state.pending_actions = [] := List.length_eq_zero.mp h0
    simp [this, logOf]
  · rw [if_neg h0]
    simpa using foldl_execOne_log outcome state.pending_actions (state, [])

theorem writesFor_mem_log (outcome : PendingAction → HandlerResult)
    (state : ConversationState) (b : PendingAction) (w : StoreWrite)
    (hb : b ∈ state.pending_actions) (hpend : b.status = ActionStatus.pending)
    (hw : w ∈ writesFor outcome b) :
    w ∈ (executeActionsNode outcome state).2 := by
  rw [executeActionsNode_log]
  unfold logOf
  rw [List.mem_flatMap]
  exact ⟨b, List.mem_filter.mpr ⟨hb, by simp [hpend]⟩, hw⟩

theorem executeActionsNode_preserve (outcome : PendingAction → HandlerResult)
    (state : ConversationState) (i : Nat) (a : PendingAction)
    (ha : state.pending_actions[i]? = some a)
    (hall : ∀ c ∈ state.pending_actions,
      c.status = ActionStatus.pending → c.id ≠ a.id) :
    (executeActionsNode outcome state).1.pending_actions[i]? = some a := by
  unfold executeActionsNode
  by_cases h0 : state.pending_actions.length = 0
  · rw [if_pos h0]; exact ha
  · rw [if_neg h0]
    exact foldl_execOne_preserve outcome state.pending_actions (state, []) i a ha hall

theorem executeActionsNode_terminal (outcome : PendingAction → HandlerResult)
    (state : ConversationState) (j : Nat) (b : PendingAction)
    (hdist : state.pending_actions.Pairwise (fun p q => p.id ≠ q.id))
    (hj : state.pending_actions[j]? = some b)
    (hpend : b.status = ActionStatus.pending) :
    (executeActionsNode outcome state).1.pending_actions[j]? =
      some { b with status := terminalStatusOf outcome b } := by
  obtain ⟨hjlt, hbj⟩ := List.getElem?_eq_some_iff.mp hj
  have hne0 : ¬ (state.pending_actions.length = 0) := by omega
  have hdistg := List.pairwise_iff_getElem.mp hdist
  unfold executeActionsNode
  rw [if_neg hne0]
  have hsplit : state.pending_actions =
      state.pending_actions.take j ++
        state.pending_actions[j] :: state.pending_actions.drop (j + 1) := by
    conv_lhs => rw [← List.take_append_drop j state.pending_actions]
    rw [List.drop_eq_getElem_cons hjlt]
  rw [hsplit, List.foldl_append, List.foldl_cons]
  have h1 : ((state.pending_actions.take j).foldl (execOne outcome)
      (state, [])).1.pending_actions[j]? = some b := by
    apply foldl_execOne_preserve outcome _ _ j b hj
    intro c hcmem hcp
    obtain ⟨k, hk, hck⟩ := List.mem_iff_getElem.mp hcmem
    have hkj : k < j := by
      have hk' := hk
      simp [List.length_take] at hk'
      omega
    have hkl : k < state.pending_actions.length := by omega
    have hcl : state.pending_actions[k] = c := by
      rw [← hck]; simp
    have hne := hdistg k j hkl hjlt hkj
    rw [hcl, hbj] at hne
    exact hne
  have hstep : (execOne outcome
      ((state.pending_actions.take j).foldl (execOne outcome) (state, []))
      (state.pending_actions[j])).1.pending_actions[j]? =
      some { b with status := terminalStatusOf outcome b } := by
    rw [execOne_fst_pending outcome _ _ (by rw [hbj]; exact hpend)]
    rw [hbj]
    exact updateAction_getElem?_self _ _ _ _ _ h1 rfl
  apply foldl_execOne_preserve outcome _ _ j _ hstep
  intro c hcmem hcp
  obtain ⟨k, hk, hck⟩ := List.mem_iff_getElem.mp hcmem
  have hkl : j + 1 + k < state.pending_actions.length := by
    have hk' := hk
    simp [List.length_drop] at hk'
    omega
  have hcl : state.pending_actions[j + 1 + k] = c := by
    rw [← hck]; simp
  have hne := hdistg j (j + 1 + k) hjlt hkl (by omega)
  rw [hcl, hbj] at hne
  intro hcontra
  exact hne (hcontra.symm)

theorem terminalStatusOf_cases (outcome : PendingAction → HandlerResult)
    (b : PendingAction) :
    terminalStatusOf outcome b = ActionStatus.completed ∨
      terminalStatusOf outcome b = ActionStatus.failed := by
  unfold terminalStatusOf
  by_cases hh : actionHandlers.contains b.type_
  · rw [if_pos hh]
    cases outcome b <;> simp
  · rw [if_neg hh]
    right
    rfl

theorem terminalStatusOf_no_handler (outcome : PendingAction → HandlerResult)
    (b : PendingAction) (hh : actionHandlers.contains b.type_ = false) :
    terminalStatusOf outcome b = ActionStatus.failed := by
  unfold terminalStatusOf
  rw [hh]
  rfl

theorem terminalStatusOf_thrown (outcome : PendingAction → HandlerResult)
    (b : PendingAction) (msg : String)
    (hh : actionHandlers.contains b.type_ = true)
    (ho : outcome b = HandlerResult.thrown msg) :
    terminalStatusOf outcome b = ActionStatus.failed := by
  unfold terminalStatusOf
  rw [hh, ho]
  rfl

theorem orUnknownStr_ne_empty (m : String) : orUnknownStr m ≠ "" := by
  unfold orUnknownStr
  by_cases h : m == ""
  · rw [if_pos h]; decide
  · rw [if_neg h]; simpa using h

theorem except_bind_ok {ε α β : Type} (a : α) (f : α → Except ε β) :
    (Except.ok a : Except ε α) >>= f = f a := rfl

theorem messages_eq_app_nil (x state : ConversationState)
    (h : x.messages = state.messages) :
    ∃ t, x.messages = state.messages ++ t :=
  ⟨[], by rw [h, List.append_nil]⟩

theorem getLastHumanMessage_none (state : ConversationState)
    (h : ∀ m ∈ state.messages, m.role ≠ Role.human) :
    getLastHumanMessage state = none := by
  unfold getLastHumanMessage
  rw [List.find?_eq_none]
  intro m hm
  simp only [List.mem_reverse] at hm
  simpa using h m hm

/-! ## Claim theorems -/

/-- C1, counterexample: the claim says the orchestrator returns "the partial
state that existed immediately before the throw" with one apologetic `ai`
message appended.  Concretely: retrieval succeeds and sets `context` to
`["[1] demo context"]`, then extraction throws.  The partial state before the
throw has that context, but the catch builds its fallback from the original
`state` argument, so the returned context is `[]` — appending a message to
the partial state can never change `context`, so the returned state is not
the partial state plus an apology. -/
theorem fallback_discards_partial_state :
    (advancedGraphInvoke
        (fun s => Except.ok { s with context := ["[1] demo context"] })
        (fun _ => Except.error "extraction stage threw")
        (fun s => Except.ok s) (fun s => Except.ok s) (fun s => Except.ok s)
        demoState).context
      ≠ ({ demoState with context := ["[1] demo context"] } : ConversationState).context := by
  decide

/-- C1, amended: if any stage of the conditional pipeline throws, `invoke`
does not propagate the exception; it returns the *original input state*
passed to `invoke` with exactly one apologetic `ai` message appended —
updates made by stages that completed before the throw are discarded. -/
theorem orchestrator_fallback_appends_apology_to_input
    (retrieve extract execute genSummary gen :
      ConversationState → Except String ConversationState)
    (state : ConversationState) (err : String)
    (h : orchestrate retrieve extract execute genSummary gen state =
      Except.error err) :
    advancedGraphInvoke retrieve extract execute genSummary gen state =
      { state with
        messages := state.messages ++
          [Message.mk Role.ai
            "I\x27m sorry, I encountered an error processing your request."] } := by
  unfold advancedGraphInvoke
  rw [h]
  rfl

/-- Witness for C1's amended theorem at a concrete throwing pipeline. -/
theorem orchestrator_fallback_witness :
    orchestrate (fun s => Except.ok s) (fun _ => Except.error "boom")
        (fun s => Except.ok s) (fun s => Except.ok s) (fun s => Except.ok s)
        demoState = Except.error "boom"
    ∧ advancedGraphInvoke (fun s => Except.ok s) (fun _ => Except.error "boom")
        (fun s => Except.ok s) (fun s => Except.ok s) (fun s => Except.ok s)
        demoState =
      { demoState with
        messages := demoState.messages ++
          [Message.mk Role.ai
            "I\x27m sorry, I encountered an error processing your request."] } :=
  ⟨rfl, orchestrator_fallback_appends_apology_to_input _ _ _ _ _ demoState "boom" rfl⟩

/-- C2: in the conditional pipeline, once retrieval and extraction have
produced `s2`, the execute-then-generate-with-summary branch runs iff
`s2.pending_actions` is non-empty; otherwise the plain generation node runs
and the result does not depend on the execution stage at all (the equation
holds for every `execute`). -/
theorem advanced_branch_iff_pending_actions
    (retrieve extract execute genSummary gen :
      ConversationState → Except String ConversationState)
    (state s1 s2 : ConversationState)
    (h1 : retrieve state = Except.ok s1)
    (h2 : extract s1 = Except.ok s2) :
    (s2.pending_actions ≠ [] →
      orchestrate retrieve extract execute genSummary gen state =
        (execute s2) >>= genSummary)
    ∧ (s2.pending_actions = [] →
      orchestrate retrieve extract execute genSummary gen state = gen s2) := by
  unfold orchestrate
  rw [h1, except_bind_ok, h2, except_bind_ok]
  constructor
  · intro hne
    rw [if_pos (by simpa using List.length_pos.mpr hne)]
  · intro heq
    rw [if_neg (by simp [heq])]

/-- Witness for C2 at a concrete pipeline whose extraction appends one
pending action (non-empty branch). -/
theorem advanced_branch_witness :
    demoWithAction.pending_actions ≠ []
    ∧ orchestrate (fun s => Except.ok s)
        (fun s => Except.ok { s with pending_actions := [demoPending] })
        (fun s => Except.ok s)
        (fun s => Except.ok (addAIMessage s "done"))
        (fun s => Except.ok (addAIMessage s "plain"))
        demoState =
      ((fun s => Except.ok s : ConversationState → Except String ConversationState)
        demoWithAction) >>= (fun s => Except.ok (addAIMessage s "done")) := by
  refine ⟨by simp [demoWithAction, demoPending], ?_⟩
  exact (advanced_branch_iff_pending_actions _ _ _ _ _ demoState demoState
    demoWithAction rfl rfl).1 (by simp [demoWithAction, demoPending])

/-- C3: every stage only ever appends to `messages`: the output messages of
retrieval, extraction, execution and both generation nodes extend the input
messages on the right (the input is a prefix, nothing is removed or
edited). -/
theorem stages_preserve_message_history
    (store : String → Nat → Except String (List ContextChunk))
    (eff : ExtractEffects) (outcome : PendingAction → HandlerResult)
    (model model2 : PromptInput → Except String String)
    (stringify : List (String × JsonValue) → String)
    (state : ConversationState) :
    (∃ t, (retrievalNode store state).1.messages = state.messages ++ t)
    ∧ (∃ t, (extractActionsNode eff state).state.messages = state.messages ++ t)
    ∧ (∃ t, (executeActionsNode outcome state).1.messages = state.messages ++ t)
    ∧ (∃ t, (generateResponseNode model state).messages = state.messages ++ t)
    ∧ (∃ t, (generateResponseWithActionSummaryNode stringify model2 state).messages =
        state.messages ++ t) := by
  refine ⟨?_, ?_, ?_, ?_, ?_⟩
  · apply messages_eq_app_nil
    unfold retrievalNode
    cases getLastHumanMessage state with
    | none => rfl
    | some m =>
      dsimp only
      by_cases h : m.content = ""
      · rw [if_pos h]
      · rw [if_neg h]
        cases store m.content DEFAULT_RETRIEVAL_LIMIT with
        | error e => rfl
        | ok cs =>
          dsimp only
          by_cases h2 : cs.length = 0
          · rw [if_pos h2]
          · rw [if_neg h2]
  · apply messages_eq_app_nil
    unfold extractActionsNode
    cases getLastHumanMessage state with
    | none => rfl
    | some m =>
      dsimp only
      by_cases h : m.content = ""
      · rw [if_pos h]
      · rw [if_neg h]
        cases eff.response with
        | error e => rfl
        | ok resp =>
          dsimp only
          cases extractedActionOf resp with
          | none => rfl
          | some tool =>
            dsimp only
            cases eff.parseArgs tool.arguments with
            | error e => rfl
            | ok args =>
              dsimp only
              by_cases hv : (validateActionData tool.name args).valid = false
              · rw [if_pos hv]
              · rw [if_neg hv]
                cases eff.create with
                | error e => rfl
                | ok u => rfl
  · exact messages_eq_app_nil _ _ (executeActionsNode_messages outcome state)
  · unfold generateResponseNode
    dsimp only
    cases (getMessageHistory state).getLast? with
    | none => exact ⟨[Message.mk Role.ai noHistoryContent], rfl⟩
    | some m =>
      dsimp only
      by_cases h : m.content = ""
      · rw [if_pos h]
        exact ⟨[Message.mk Role.ai invalidLastContent], rfl⟩
      · rw [if_neg h]
        cases model (genInput state m) with
        | error e => exact ⟨[Message.mk Role.ai fallbackGenerate], rfl⟩
        | ok c => exact ⟨[Message.mk Role.ai c], rfl⟩
  · unfold generateResponseWithActionSummaryNode
    cases (getMessageHistory state).getLast? with
    | none => exact ⟨[Message.mk Role.ai fallbackSummary], rfl⟩
    | some m =>
      dsimp only
      cases model2 (summaryInput stringify state m) with
      | error e => exact ⟨[Message.mk Role.ai fallbackSummary], rfl⟩
      | ok c => exact ⟨[Message.mk Role.ai c], rfl⟩

/-- C4: when the pending actions have pairwise-distinct ids, the execution
stage leaves every action whose status is not `pending` exactly as it was —
its post-execution record (in particular its status) equals its
pre-execution record. -/
theorem execute_preserves_resolved_actions (outcome : PendingAction → HandlerResult)
    (state : ConversationState) (i : Nat) (a : PendingAction)
    (hdist : state.pending_actions.Pairwise (fun p q => p.id ≠ q.id))
    (ha : state.pending_actions[i]? = some a)
    (hst : a.status ≠ ActionStatus.pending) :
    (executeActionsNode outcome state).1.pending_actions[i]? = some a := by
  apply executeActionsNode_preserve outcome state i a ha
  intro c hc hcp hcid
  have hmem_a : a ∈ state.pending_actions := List.getElem?_mem ha
  have hca : c = a := pairwise_distinct_ids hdist hc hmem_a hcid
  rw [hca] at hcp
  exact hst hcp

/-- Witness for C4: a completed action next to a pending one survives the
stage untouched. -/
theorem execute_preserves_resolved_witness :
    demoExecState.pending_actions.Pairwise (fun p q => p.id ≠ q.id)
    ∧ demoDoneAction.status ≠ ActionStatus.pending
    ∧ (executeActionsNode (fun _ => HandlerResult.success [])
        demoExecState).1.pending_actions[0]? = some demoDoneAction := by
  have hp : demoExecState.pending_actions.Pairwise (fun p q => p.id ≠ q.id) := by
    decide
  refine ⟨hp, by decide, ?_⟩
  exact execute_preserves_resolved_actions (fun _ => HandlerResult.success [])
    demoExecState 0 demoDoneAction hp rfl (by decide)

/-- C5: if the handler of one pending action throws, that action ends the
stage `failed` and a non-empty error string is persisted for it, while every
other pending action of the batch still reaches its own terminal status
(`completed` or `failed`) — the throw neither aborts the loop nor suppresses
the sibling transitions, and the returned state records every attempted
transition. -/
theorem execute_isolates_handler_throw (outcome : PendingAction → HandlerResult)
    (state : ConversationState) (i : Nat) (a : PendingAction) (msg : String)
    (hdist : state.pending_actions.Pairwise (fun p q => p.id ≠ q.id))
    (ha : state.pending_actions[i]? = some a)
    (hpend : a.status = ActionStatus.pending)
    (hhandler : actionHandlers.contains a.type_ = true)
    (hthrow : outcome a = HandlerResult.thrown msg) :
    (executeActionsNode outcome state).1.pending_actions[i]? =
        some { a with status := ActionStatus.failed }
    ∧ StoreWrite.failed a.id (orUnknownStr msg) ∈ (executeActionsNode outcome state).2
    ∧ orUnknownStr msg ≠ ""
    ∧ (∀ (j : Nat) (b : PendingAction), state.pending_actions[j]? = some b →
        b.status = ActionStatus.pending →
        (executeActionsNode outcome state).1.pending_actions[j]? =
          some { b with status := terminalStatusOf outcome b }
        ∧ (terminalStatusOf outcome b = ActionStatus.completed ∨
           terminalStatusOf outcome b = ActionStatus.failed)) := by
  refine ⟨?_, ?_, orUnknownStr_ne_empty msg, ?_⟩
  · have ht := executeActionsNode_terminal outcome state i a hdist ha hpend
    rwa [terminalStatusOf_thrown outcome a msg hhandler hthrow] at ht
  · apply writesFor_mem_log outcome state a _ (List.getElem?_mem ha) hpend
    unfold writesFor
    rw [hhandler, hthrow]
    simp
  · intro j b hb hbpend
    exact ⟨executeActionsNode_terminal outcome state j b hdist hb hbpend,
      terminalStatusOf_cases outcome b⟩

/-- Witness for C5: the note handler throws, and the note action ends
`failed` while its pending sibling still completes. -/
theorem execute_isolates_witness :
    demoThrowState.pending_actions.Pairwise (fun p q => p.id ≠ q.id)
    ∧ demoThrowOutcome demoNoteAction = HandlerResult.thrown "boom"
    ∧ (executeActionsNode demoThrowOutcome demoThrowState).1.pending_actions[0]? =
        some { demoNoteAction with status := ActionStatus.failed } := by
  have hp : demoThrowState.pending_actions.Pairwise (fun p q => p.id ≠ q.id) := by
    decide
  refine ⟨hp, rfl, ?_⟩
  exact (execute_isolates_handler_throw demoThrowOutcome demoThrowState 0
    demoNoteAction "boom" hp rfl rfl rfl rfl).1

/-- C6: when the selected tool call's parsed arguments fail registry
validation, the extraction stage returns its input state unchanged (so
`pending_actions` is exactly the input sequence) and never calls the durable
store's create operation. -/
theorem invalid_extraction_changes_nothing (eff : ExtractEffects)
    (state : ConversationState) (resp : ModelResponse) (tool : ToolCallFunction)
    (args : List (String × JsonValue))
    (hresp : eff.response = Except.ok resp)
    (htool : extractedActionOf resp = some tool)
    (hparse : eff.parseArgs tool.arguments = Except.ok args)
    (hinvalid : (validateActionData tool.name args).valid = false) :
    (extractActionsNode eff state).state = state
    ∧ (extractActionsNode eff state).createCalls = 0 := by
  unfold extractActionsNode
  cases getLastHumanMessage state with
  | none => exact ⟨rfl, rfl⟩
  | some m =>
    dsimp only
    by_cases h : m.content = ""
    · rw [if_pos h]; exact ⟨rfl, rfl⟩
    · rw [if_neg h, hresp]
      dsimp only
      rw [htool]
      dsimp only
      rw [hparse]
      dsimp only
      rw [if_pos hinvalid]
      exact ⟨rfl, rfl⟩

/-- Witness for C6: a `take_note` call with an empty argument object fails
validation (missing required `content`) and leaves the state and the store
untouched. -/
theorem invalid_extraction_witness :
    (validateActionData "take_note" []).valid = false
    ∧ (extractActionsNode demoInvalidEffects demoState).state = demoState
    ∧ (extractActionsNode demoInvalidEffects demoState).createCalls = 0 := by
  have h := invalid_extraction_changes_nothing demoInvalidEffects demoState
    { tool_calls := some [⟨"function", some ⟨"take_note", "\x7b\x7d"⟩⟩]
    , function_call := none }
    ⟨"take_note", "\x7b\x7d"⟩ [] rfl rfl rfl rfl
  exact ⟨rfl, h.1, h.2⟩

/-- C7: with a non-empty history window whose last message has non-empty
content, a throwing model invocation makes each generation node return
normally with exactly one new `ai` message appended carrying that node's
fixed fallback apology string, all other fields unchanged. -/
theorem generation_failure_appends_fallback
    (model model2 : PromptInput → Except String String)
    (stringify : List (String × JsonValue) → String)
    (state : ConversationState) (lastMessage : Message) (e1 e2 : String)
    (hlast : (getMessageHistory state).getLast? = some lastMessage)
    (hcontent : lastMessage.content ≠ "")
    (hm1 : model (genInput state lastMessage) = Except.error e1)
    (hm2 : model2 (summaryInput stringify state lastMessage) = Except.error e2) :
    generateResponseNode model state =
      { state with
        messages := state.messages ++ [Message.mk Role.ai fallbackGenerate] }
    ∧ generateResponseWithActionSummaryNode stringify model2 state =
      { state with
        messages := state.messages ++ [Message.mk Role.ai fallbackSummary] } := by
  constructor
  · unfold generateResponseNode
    dsimp only
    rw [hlast]
    dsimp only
    rw [if_neg hcontent, hm1]
    rfl
  · unfold generateResponseWithActionSummaryNode
    rw [hlast]
    dsimp only
    rw [hm2]
    rfl

/-- Witness for C7 on the plain generation node with a failing provider. -/
theorem generation_failure_witness :
    (getMessageHistory demoState).getLast? = some (Message.mk Role.human "hi")
    ∧ generateResponseNode (fun _ => Except.error "provider down") demoState =
      { demoState with
        messages := demoState.messages ++ [Message.mk Role.ai fallbackGenerate] } := by
  refine ⟨rfl, ?_⟩
  exact (generation_failure_appends_fallback
    (fun _ => Except.error "provider down") (fun _ => Except.error "provider down")
    (fun _ => "") demoState (Message.mk Role.human "hi") "provider down"
    "provider down" rfl (by decide) rfl rfl).1

/-- C8: with a last human message of non-empty content, a store query that
throws or returns zero results makes the retrieval stage return the input
state with `context` overwritten to the empty sequence and everything else
unchanged (and exactly one query was issued, no other external effect). -/
theorem retrieval_error_or_empty_clears_context
    (store : String → Nat → Except String (List ContextChunk))
    (state : ConversationState) (m : Message) (errMsg : String)
    (hm : getLastHumanMessage state = some m)
    (hc : m.content ≠ "")
    (hq : store m.content DEFAULT_RETRIEVAL_LIMIT = Except.error errMsg ∨
          store m.content DEFAULT_RETRIEVAL_LIMIT = Except.ok []) :
    retrievalNode store state = ({ state with context := [] }, 1) := by
  unfold retrievalNode
  rw [hm]
  dsimp only
  rw [if_neg hc]
  rcases hq with h | h
  · rw [h]
  · rw [h]
    dsimp only
    simp

/-- Witness for C8 with a store that returns zero results. -/
theorem retrieval_error_witness :
    getLastHumanMessage demoState = some (Message.mk Role.human "hi")
    ∧ retrievalNode (fun _ _ => Except.ok []) demoState =
      ({ demoState with context := [] }, 1) := by
  refine ⟨rfl, ?_⟩
  exact retrieval_error_or_empty_clears_context (fun _ _ => Except.ok [])
    demoState (Message.mk Role.human "hi") "" rfl (by decide) (Or.inr rfl)

/-- C9: when no message has the `human` role, retrieval and extraction both
return the input state unchanged, issue no store query, no model invocation
and no durable create. -/
theorem no_human_message_stages_noop
    (store : String → Nat → Except String (List ContextChunk))
    (eff : ExtractEffects) (state : ConversationState)
    (h : ∀ m ∈ state.messages, m.role ≠ Role.human) :
    retrievalNode store state = (state, 0)
    ∧ extractActionsNode eff state = ⟨state, 0, 0⟩ := by
  have hn := getLastHumanMessage_none state h
  constructor
  · unfold retrievalNode; rw [hn]
  · unfold extractActionsNode; rw [hn]

/-- Witness for C9 on a conversation holding only `ai` and `system`
messages. -/
theorem no_human_message_witness :
    (∀ m ∈ demoAiState.messages, m.role ≠ Role.human)
    ∧ retrievalNode (fun _ _ => Except.error "unused") demoAiState = (demoAiState, 0)
    ∧ extractActionsNode demoInvalidEffects demoAiState = ⟨demoAiState, 0, 0⟩ := by
  have h : ∀ m ∈ demoAiState.messages, m.role ≠ Role.human := by decide
  have hc := no_human_message_stages_noop (fun _ _ => Except.error "unused")
    demoInvalidEffects demoAiState h
  exact ⟨h, hc.1, hc.2⟩

/-- C10: `search_knowledge` is in the registry offered to the extraction
model, but the static handler table has no entry for it, so a pending
`search_knowledge` action always leaves the execution stage `failed`, with
the persisted error naming the missing handler type. -/
theorem search_knowledge_always_fails (outcome : PendingAction → HandlerResult)
    (state : ConversationState) (j : Nat) (b : PendingAction)
    (hdist : state.pending_actions.Pairwise (fun p q => p.id ≠ q.id))
    (hb : state.pending_actions[j]? = some b)
    (hpend : b.status = ActionStatus.pending)
    (htype : b.type_ = "search_knowledge") :
    "search_knowledge" ∈ functionDefinitions.map FunctionDef.name
    ∧ actionHandlers.contains "search_knowledge" = false
    ∧ (executeActionsNode outcome state).1.pending_actions[j]? =
        some { b with status := ActionStatus.failed }
    ∧ StoreWrite.failed b.id "No handler for action type: search_knowledge"
        ∈ (executeActionsNode outcome state).2 := by
  have hnh : actionHandlers.contains b.type_ = false := by rw [htype]; rfl
  have hw : writesFor outcome b =
      [StoreWrite.failed b.id "No handler for action type: search_knowledge"] := by
    unfold writesFor
    rw [htype]
    rfl
  refine ⟨by decide, rfl, ?_, ?_⟩
  · have ht := executeActionsNode_terminal outcome state j b hdist hb hpend
    rwa [terminalStatusOf_no_handler outcome b hnh] at ht
  · exact writesFor_mem_log outcome state b _ (List.getElem?_mem hb) hpend
      (by rw [hw]; simp)

/-- Witness for C10 on a batch holding one pending `search_knowledge`
action. -/
theorem search_knowledge_witness :
    demoSearchState.pending_actions[0]? = some demoSearchAction
    ∧ (executeActionsNode (fun _ => HandlerResult.success [])
        demoSearchState).1.pending_actions[0]? =
      some { demoSearchAction with status := ActionStatus.failed } := by
  refine ⟨rfl, ?_⟩
  exact (search_knowledge_always_fails (fun _ => HandlerResult.success [])
    demoSearchState 0 demoSearchAction (by decide) rfl rfl rfl).2.2.1

end LLMAgent
